import Mathlib

/-!
Verification of the annotation-tool core (annotation.py) against its
natural-language specification.

The embedding mirrors the Python source:
* a persisted frame record is a JSON object mapping string-encoded integer
  keys to objects with optional keys box, class, track_id; we model it as
  a list of key/record pairs in file order, with Option fields standing
  for possibly-absent JSON keys (field cls stands for the JSON key class);
* a frame file on disk is absent, unparseable (malformed), or parsed data;
* a folder is the ordered list of frame files (for interpolation the list
  position is the frame index given by the sorted image file list; for the
  folder-wide scans it is the directory iteration order);
* Python float arithmetic is modelled over ℚ.  Division by zero yields 0
  in ℚ while Python would raise; every use below divides by a nonzero
  denominator on the inputs the claims are about;
* a Python function that can raise is modelled in Except, the error value
  carrying the files already rewritten at raise time (an exception leaves
  earlier writes on disk).
-/

/-- A rectangle [x1, y1, x2, y2] as stored under the box key. -/
structure Box4 where
  x1 : ℚ
  y1 : ℚ
  x2 : ℚ
  y2 : ℚ
deriving DecidableEq, Repr

/-- One annotation record: the JSON object value with optional keys
box, class (field cls here) and track_id. -/
structure BoxRecord where
  box : Option Box4
  cls : Option Int
  track_id : Option Int
deriving DecidableEq, Repr

/-- The parsed content of one frame record file, in file order. -/
abbrev FrameData := List (Nat × BoxRecord)

/-- A frame record file on disk: missing, unparseable JSON, or parsed. -/
inductive FileState where
  | absent : FileState
  | malformed : FileState
  | ok : FrameData → FileState
deriving DecidableEq, Repr

/-- The annotation folder: one FileState per frame file. -/
abbrev Folder := List FileState

/-- The parsed data of a file, empty for a missing file
(json.load of a missing path is never reached; callers substitute {}). -/
def file_data : FileState → FrameData
  | .ok data => data
  | _ => []

/-- AnnotationManager.save_to_file: the persisted dictionary keeps exactly
the in-memory records with data.get(class, -1) different from -1. -/
def save_to_file (boxes : FrameData) : FrameData :=
  boxes.filter fun e => e.2.cls.getD (-1) != -1

/-- The loading loop of AnnotationManager.load_from_file: entries without
a box key are skipped before they can touch boxes or next_id; every kept
entry bumps next_id to key + 1 when key is at least next_id. -/
def loadGo : FrameData → FrameData × Nat → FrameData × Nat
  | [], st => st
  | (k, r) :: rest, (bs, nid) =>
    if r.box = none then loadGo rest (bs, nid)
    else loadGo rest (bs ++ [(k, r)], if nid ≤ k then k + 1 else nid)

/-- AnnotationManager.load_from_file on parsed file content: returns the
in-memory box map together with the next_id allocator value. -/
def load_from_file (data : FrameData) : FrameData × Nat :=
  loadGo data ([], 0)

/-- AnnotationManager.update_box: only acts when box_id is a present key
and a rectangle was passed; it then overwrites just the box field.  The
Python function body has no return statement, so the call evaluates to
None in every case, modelled as the second component none. -/
def update_box (boxes : FrameData) (box_id : Nat) (rect : Option Box4) :
    FrameData × Option Bool :=
  if (boxes.any fun e => e.1 == box_id) && rect.isSome then
    (boxes.map fun e => if e.1 = box_id then (e.1, { e.2 with box := rect }) else e, none)
  else
    (boxes, none)

/-- MainWindow.calculate_iou, verbatim over ℚ. -/
def calculate_iou (boxA boxB : Box4) : ℚ :=
  let xA := max boxA.x1 boxB.x1
  let yA := max boxA.y1 boxB.y1
  let xB := min boxA.x2 boxB.x2
  let yB := min boxA.y2 boxB.y2
  let interArea := max 0 (xB - xA) * max 0 (yB - yA)
  let areaA := (boxA.x2 - boxA.x1) * (boxA.y2 - boxA.y1)
  let areaB := (boxB.x2 - boxB.x1) * (boxB.y2 - boxB.y1)
  interArea / (areaA + areaB - interArea)

/-- A raw detection delivered by the YOLO worker: box plus class. -/
structure Detection where
  box : Box4
  cls : Int
deriving DecidableEq, Repr

/-- A previous-frame box as collected in on_yolo_finished step 2 (records
with box and track_id keys; the match loop then reads its class). -/
structure PrevBox where
  box : Box4
  track_id : Int
  cls : Int
deriving DecidableEq, Repr

/-- on_yolo_finished step 0: drop detections overlapping an existing
manual box with IoU above 0.5 and an equal class. -/
def unique_detections (dets existing : List Detection) : List Detection :=
  dets.filter fun d =>
    !(existing.any fun e =>
      decide ((1:ℚ)/2 < calculate_iou d.box e.box) && (d.cls == e.cls))

/-- on_yolo_finished step 1: the set of indices dropped by the internal
NMS pass (for each surviving i, drop every later not-yet-dropped j whose
IoU with i exceeds 0.5). -/
def nms_dropped (dets : List Detection) : List Nat :=
  (List.range dets.length).foldl
    (fun dropped i =>
      if i ∈ dropped then dropped
      else
        (List.range dets.length).foldl
          (fun dr j =>
            if j < i + 1 ∨ j ∈ dr then dr
            else
              match dets[i]?, dets[j]? with
              | some di, some dj =>
                if (1:ℚ)/2 < calculate_iou di.box dj.box then dr ++ [j] else dr
              | _, _ => dr)
          dropped)
    []

/-- on_yolo_finished: final_detections, the survivors of duplicate
suppression followed by internal NMS. -/
def final_detections (dets existing : List Detection) : List Detection :=
  let uniq := unique_detections dets existing
  let dropped := nms_dropped uniq
  (uniq.enum.filter fun p => !(decide (p.1 ∈ dropped))).map Prod.snd

/-- The match loop of on_yolo_finished step 3: best IoU so far with the
matching previous track_id and class, starting from (0.0, -1, -1) and
updating on a strict improvement. -/
def best_match (newBox : Box4) (prevs : List PrevBox) : ℚ × Int × Int :=
  prevs.foldl
    (fun best p =>
      let iou := calculate_iou newBox p.box
      if best.1 < iou then (iou, p.track_id, p.cls) else best)
    (0, -1, -1)

/-- The effect of AnnotationManager.add_box on next_suggestion_track_id:
a positive track id at least the counter advances it to track id + 1. -/
def add_box_suggestion (next track_id : Int) : Int :=
  if 0 < track_id ∧ next ≤ track_id then track_id + 1 else next

/-- on_yolo_finished step 3 over the surviving detections: each detection
is matched against the previous frame; best IoU above 0.3 inherits that
box's track_id and class, otherwise the detection takes the current
next_suggestion_track_id which is then incremented; every created record
also passes through add_box's counter update. -/
def assign_tracks (prevs : List PrevBox) : List Detection → Int → List BoxRecord × Int
  | [], next => ([], next)
  | d :: ds, next =>
    let b := best_match d.box prevs
    if (3:ℚ)/10 < b.1 then
      let next1 := add_box_suggestion next b.2.1
      let res := assign_tracks prevs ds next1
      (⟨some d.box, some b.2.2, some b.2.1⟩ :: res.1, res.2)
    else
      let next1 := add_box_suggestion (next + 1) next
      let res := assign_tracks prevs ds next1
      (⟨some d.box, some d.cls, some next⟩ :: res.1, res.2)

/-- The whole record-producing pipeline of on_yolo_finished: filter
against existing manual boxes, internal NMS, then track assignment. -/
def detection_merge (dets existing : List Detection) (prevs : List PrevBox)
    (next : Int) : List BoxRecord × Int :=
  assign_tracks prevs (final_detections dets existing) next

/-- folder_unique_tracks: a Python dict whose keys are the raw values of
val.get(track_id) (possibly None) and whose values are the raw values of
val.get(class) (possibly None), as a lookup function. -/
abbrev TrackCache := Option Int → Option (Option Int)

/-- The empty folder_unique_tracks dictionary. -/
def emptyTrackCache : TrackCache := fun _ => none

/-- Dictionary assignment folder_unique_tracks[tid] = cls. -/
def cacheInsert (c : TrackCache) (k v : Option Int) : TrackCache :=
  fun k' => if k' = k then some v else c k'

/-- The loop body of rebuild_track_cache for one record: insert the raw
values of val.get(track_id) and val.get(class), with no checks at all. -/
def rebuild_step (cache : TrackCache) (e : Nat × BoxRecord) : TrackCache :=
  cacheInsert cache e.2.track_id e.2.cls

/-- rebuild_track_cache on one file: every record of a parseable file is
inserted; unparseable files are skipped by the except handler. -/
def rebuild_file (cache : TrackCache) (fs : FileState) : TrackCache :=
  match fs with
  | .ok data => data.foldl rebuild_step cache
  | _ => cache

/-- AnnotationManager.rebuild_track_cache over all files. -/
def rebuild_track_cache (folder : Folder) : TrackCache :=
  folder.foldl rebuild_file emptyTrackCache

/-- The loop body of scan_folder for one record: only entries carrying
both a track_id and a class key with a positive track id are inserted,
and such an id advances the next suggested track id to tid + 1 when it
reaches the counter. -/
def scan_step (st : TrackCache × Int) (e : Nat × BoxRecord) : TrackCache × Int :=
  match e.2.track_id, e.2.cls with
  | some tid, some cid =>
    if 0 < tid then
      (cacheInsert st.1 (some tid) (some cid),
       if st.2 ≤ tid then tid + 1 else st.2)
    else st
  | _, _ => st

/-- scan_folder on one file: parseable files contribute every record via
scan_step; unparseable files are skipped. -/
def scan_file (st : TrackCache × Int) (fs : FileState) : TrackCache × Int :=
  match fs with
  | .ok data => data.foldl scan_step st
  | _ => st

/-- AnnotationManager.scan_folder: full rescan building the track map and
the next suggested track id, starting from the empty map and counter 1. -/
def scan_folder (folder : Folder) : TrackCache × Int :=
  folder.foldl scan_file (emptyTrackCache, 1)

/-- The per-record body of AnnotationManager.swap_track_id_globally:
an id1 record becomes id2, an elif id2 record becomes id1; the second
component is that record's contribution to the returned count. -/
def swap_record (id1 id2 : Int) (r : BoxRecord) : BoxRecord × Nat :=
  if r.track_id = some id1 then ({ r with track_id := some id2 }, 1)
  else if r.track_id = some id2 then ({ r with track_id := some id1 }, 1)
  else (r, 0)

/-- swap_track_id_globally on one file: unparseable files are left alone
by the except handler; parsed files have every record swapped in one
pass and are written back. -/
def swap_file (id1 id2 : Int) : FileState → FileState × Nat
  | .ok data =>
    (.ok (data.map fun e => (e.1, (swap_record id1 id2 e.2).1)),
     (data.map fun e => (swap_record id1 id2 e.2).2).sum)
  | fs => (fs, 0)

/-- AnnotationManager.swap_track_id_globally over the folder: identical
ids return immediately with count 0, otherwise every file is processed
and the touched-record counts are summed. -/
def swap_track_id_globally (id1 id2 : Int) (folder : Folder) : Folder × Nat :=
  if id1 = id2 then (folder, 0)
  else
    (folder.map fun fs => (swap_file id1 id2 fs).1,
     (folder.map fun fs => (swap_file id1 id2 fs).2).sum)

/-- The keyframe-gathering body of AnnotationManager.interpolate_track for
one file: a missing or unparseable file contributes nothing; otherwise
the first record with the target track id is taken, and a KeyError on its
box or class key is swallowed by the bare except (no keyframe). -/
def scan_keyframe (target : Int) : FileState → Option (Box4 × Int)
  | .ok data =>
    match data.find? (fun e => e.2.track_id == some target) with
    | some e =>
      match e.2.box, e.2.cls with
      | some b, some c => some (b, c)
      | _, _ => none
    | none => none
  | _ => none

/-- The enumerate loop of the keyframe scan, carrying the frame index. -/
def keyframesGo (target : Int) (i : Nat) : Folder → List (Nat × Box4 × Int)
  | [] => []
  | fs :: rest =>
    match scan_keyframe target fs with
    | some (b, c) => (i, b, c) :: keyframesGo target (i + 1) rest
    | none => keyframesGo target (i + 1) rest

/-- All keyframes of a track in frame order (already sorted by index). -/
def gather_keyframes (target : Int) (folder : Folder) : List (Nat × Box4 × Int) :=
  keyframesGo target 0 folder

/-- new_bid in interpolate_track: 0 for an empty file, otherwise the
largest existing numeric key plus one. -/
def fresh_key (data : FrameData) : Nat :=
  if data.isEmpty then 0 else (data.map Prod.fst).foldr max 0 + 1

/-- The interpolated rectangle: per-frame deltas (end minus start over
steps) scaled by the step number and added to the start, as in the
source. -/
def interp_box (s e : Box4) (steps k : Nat) : Box4 :=
  ⟨s.x1 + (e.x1 - s.x1) / steps * k,
   s.y1 + (e.y1 - s.y1) / steps * k,
   s.x2 + (e.x2 - s.x2) / steps * k,
   s.y2 + (e.y2 - s.y2) / steps * k⟩

/-- Does a file's parsed content hold a record with this track id (the
safety check of the fill loop)? -/
def has_track (target : Int) (fs : FileState) : Bool :=
  (file_data fs).any fun v => v.2.track_id == some target

/-- The gap-filling loop of interpolate_track for one keyframe pair: for
each step k the target file is read back without any try handler, so an
unparseable file raises immediately (error value = files written so far
and the count reached); a file already holding the track is skipped;
otherwise the interpolated record is appended under a fresh key and the
file rewritten. -/
def fill_gap (target cls : Int) (a : Nat) (s e : Box4) (steps : Nat) :
    List Nat → Folder × Nat → Except (Folder × Nat) (Folder × Nat)
  | [], st => .ok st
  | k :: ks, (folder, count) =>
    if folder.getD (a + k) .absent = .malformed then .error (folder, count)
    else
      let data := file_data (folder.getD (a + k) .absent)
      if has_track target (folder.getD (a + k) .absent) then
        fill_gap target cls a s e steps ks (folder, count)
      else
        let newData := data ++
          [(fresh_key data, ⟨some (interp_box s e steps k), some cls, some target⟩)]
        fill_gap target cls a s e steps ks (folder.set (a + k) (.ok newData), count + 1)

/-- The outer pair loop of interpolate_track: consecutive keyframe pairs;
adjacent keyframes (steps at most 1) are skipped, otherwise the gap
between them is filled; a raise inside the fill aborts everything. -/
def interp_segments (target : Int) :
    List ((Nat × Box4 × Int) × (Nat × Box4 × Int)) → Folder × Nat →
      Except (Folder × Nat) (Folder × Nat)
  | [], st => .ok st
  | (A, B) :: rest, st =>
    let a := A.1
    let steps := B.1 - A.1
    if steps ≤ 1 then interp_segments target rest st
    else
      match fill_gap target A.2.2 a A.2.1 B.2.1 steps (List.range' 1 (steps - 1)) st with
      | .error st' => .error st'
      | .ok st' => interp_segments target rest st'

/-- AnnotationManager.interpolate_track: gather keyframes (tolerantly),
return 0 with nothing written when fewer than two exist, otherwise fill
every gap between consecutive keyframes.  The ok value is the rewritten
folder with the returned count; the error value is the state at the
moment an unparseable gap file raised. -/
def interpolate_track (target : Int) (folder : Folder) :
    Except (Folder × Nat) (Folder × Nat) :=
  let kfs := gather_keyframes target folder
  if kfs.length < 2 then .ok (folder, 0)
  else interp_segments target (kfs.zip kfs.tail) (folder, 0)

/-- The files on disk (with the count reached) after a call, whether it
returned normally or raised. -/
def result_state : Except (Folder × Nat) (Folder × Nat) → Folder × Nat
  | .ok st => st
  | .error st => st

/-- A frame record set with one record whose class is -2: negative but
not the -1 sentinel. -/
def c1boxes : FrameData :=
  [(0, ⟨some ⟨0, 0, 1, 1⟩, some (-2), some 1⟩)]

/-- Keyframes for track 1 at indices 0 and 2 with an unparseable file in
the gap at index 1. -/
def c2badFolder : Folder :=
  [.ok [(0, ⟨some ⟨0, 0, 4, 4⟩, some 0, some 1⟩)],
   .malformed,
   .ok [(0, ⟨some ⟨4, 4, 8, 8⟩, some 0, some 1⟩)]]

/-- The spec scenario: track 1 keyframed at indices 2 and 5 with
geometries (0,0,10,10) and (30,0,40,10) and the gap frames empty. -/
def c2folder : Folder :=
  [.absent, .absent,
   .ok [(0, ⟨some ⟨0, 0, 10, 10⟩, some 0, some 1⟩)],
   .absent, .absent,
   .ok [(0, ⟨some ⟨30, 0, 40, 10⟩, some 0, some 1⟩)]]

/-- One file holding a single record with track id 0 and class 5. -/
def c3folder : Folder :=
  [.ok [(0, ⟨some ⟨0, 0, 1, 1⟩, some 5, some 0⟩)]]

/-- One file holding a single fully-keyed record with positive track 7. -/
def c3posFolder : Folder :=
  [.ok [(0, ⟨some ⟨0, 0, 1, 1⟩, some 4, some 7⟩)]]

/-- A folder state with tracks 1 and 2 spread over two parseable files
and one unparseable file. -/
def c5folder : Folder :=
  [.ok [(0, ⟨some ⟨0, 0, 1, 1⟩, some 3, some 1⟩),
        (1, ⟨some ⟨2, 2, 3, 3⟩, some 4, some 2⟩)],
   .ok [(0, ⟨some ⟨0, 0, 1, 1⟩, some 3, some 1⟩)],
   .malformed]

/-- A record set with only non-negative classes and boxes present. -/
def c6set : FrameData :=
  [(0, ⟨some ⟨0, 0, 1, 1⟩, some 2, some 5⟩),
   (3, ⟨some ⟨1, 1, 2, 2⟩, some 0, some 9⟩)]

/-- Track 1 keyframed at indices 0 and 3; the gap frame 1 already holds a
track-1 record (one lacking a box key, which is why the keyframe scan
passed over that file); gap frame 2 is free. -/
def c7folder : Folder :=
  [.ok [(0, ⟨some ⟨0, 0, 10, 10⟩, some 0, some 1⟩)],
   .ok [(0, ⟨none, some 0, some 1⟩)],
   .absent,
   .ok [(0, ⟨some ⟨30, 0, 40, 10⟩, some 0, some 1⟩)]]

/-- Track 1 keyframed at indices 0 and 4, gap files at 1 and 2 missing
and the gap file at 3 unparseable. -/
def c9folder : Folder :=
  [.ok [(0, ⟨some ⟨0, 0, 4, 4⟩, some 6, some 1⟩)],
   .absent, .absent, .malformed,
   .ok [(0, ⟨some ⟨4, 4, 8, 8⟩, some 6, some 1⟩)]]

/-- The on-disk state at the moment the fill loop raises on c9folder:
gap frames 1 and 2 already rewritten, the unparseable file untouched. -/
def c9expected : Folder :=
  [.ok [(0, ⟨some ⟨0, 0, 4, 4⟩, some 6, some 1⟩)],
   .ok [(0, ⟨some ⟨1, 1, 5, 5⟩, some 6, some 1⟩)],
   .ok [(0, ⟨some ⟨2, 2, 6, 6⟩, some 6, some 1⟩)],
   .malformed,
   .ok [(0, ⟨some ⟨4, 4, 8, 8⟩, some 6, some 1⟩)]]

/-- Persisted frame content with a boxless record under key 2 next to a
complete record under key 5. -/
def c10data : FrameData :=
  [(2, ⟨none, some 3, some 1⟩),
   (5, ⟨some ⟨0, 0, 2, 2⟩, some 3, some 1⟩)]

/-! ## List-level helper lemmas -/

theorem loadGo_all_some : ∀ (l : FrameData) (bs : FrameData) (nid : Nat),
    (∀ e ∈ l, e.2.box.isSome) → (loadGo l (bs, nid)).1 = bs ++ l := by
  intro l
  induction l with
  | nil => intro bs nid _; simp [loadGo]
  | cons e rest ih =>
    intro bs nid h
    obtain ⟨k, r⟩ := e
    have hr : r.box.isSome := h (k, r) (by simp)
    have hne : ¬ r.box = none := by
      cases hbox : r.box with
      | none => rw [hbox] at hr; simp at hr
      | some b => simp
    simp only [loadGo, if_neg hne]
    rw [ih _ _ (fun e he => h e (by simp [he]))]
    simp

theorem loadGo_filter : ∀ (l : FrameData) (st : FrameData × Nat),
    loadGo l st = loadGo (l.filter fun e => e.2.box.isSome) st := by
  intro l
  induction l with
  | nil => intro st; rfl
  | cons e rest ih =>
    intro st
    obtain ⟨k, r⟩ := e
    obtain ⟨bs, nid⟩ := st
    by_cases hbox : r.box = none
    · have hb : r.box.isSome = false := by rw [hbox]; rfl
      simp only [List.filter_cons, hb, Bool.false_eq_true, if_false]
      simp only [loadGo, if_pos hbox]
      exact ih _
    · have hb : r.box.isSome = true := by
        cases h : r.box with
        | none => exact absurd h hbox
        | some b => rfl
      simp only [List.filter_cons, hb, if_true]
      simp only [loadGo, if_neg hbox]
      exact ih _

theorem loadGo_mem_box : ∀ (l : FrameData) (bs : FrameData) (nid : Nat) (e : Nat × BoxRecord),
    e ∈ (loadGo l (bs, nid)).1 → e ∈ bs ∨ e.2.box.isSome := by
  intro l
  induction l with
  | nil => intro bs nid e he; exact Or.inl he
  | cons f rest ih =>
    intro bs nid e he
    obtain ⟨k, r⟩ := f
    by_cases hbox : r.box = none
    · rw [loadGo, if_pos hbox] at he
      exact ih _ _ _ he
    · rw [loadGo, if_neg hbox] at he
      rcases ih _ _ _ he with hmem | hsome
      · rcases List.mem_append.mp hmem with hbs | hsingle
        · exact Or.inl hbs
        · right
          have : e = (k, r) := by simpa using hsingle
          subst this
          cases h : r.box with
          | none => exact absurd h hbox
          | some b => rfl
      · exact Or.inr hsome

/-! ## Claim C1 -/

/-- Claim C1 counterexample: a record whose class is -2 (negative, but not
the -1 sentinel) survives save_to_file, so a record with a negative class
id can be persisted. -/
theorem save_keeps_minus_two :
    (0, (⟨some ⟨0, 0, 1, 1⟩, some (-2), some 1⟩ : BoxRecord)) ∈ save_to_file c1boxes ∧
    ((-2 : Int) < 0) := by
  constructor
  · simp [save_to_file, c1boxes]
  · decide

/-- Claim C1 (amended): saving always succeeds, and the persisted result
omits exactly the records whose class value (defaulting to -1 when the
class key is absent) equals the -1 sentinel; every other record, negative
classes other than -1 included, is persisted unchanged. -/
theorem save_to_file_mem_iff (boxes : FrameData) (e : Nat × BoxRecord) :
    e ∈ save_to_file boxes ↔ e ∈ boxes ∧ e.2.cls.getD (-1) ≠ -1 := by
  simp [save_to_file, List.mem_filter]

/-! ## Claim C6 -/

/-- Claim C6: decoding the encoding of a frame record set whose records
all carry a geometry and a non-negative class reproduces it exactly
(local ids, geometries, classes and track ids included). -/
theorem encode_decode_roundtrip (s : FrameData)
    (hwf : ∀ e ∈ s, e.2.box.isSome ∧ 0 ≤ e.2.cls.getD (-1)) :
    (load_from_file (save_to_file s)).1 = s := by
  have hsave : save_to_file s = s := by
    apply List.filter_eq_self.mpr
    intro e he
    have h2 := (hwf e he).2
    simp only [bne_iff_ne, ne_eq, decide_eq_true_eq]
    omega
  rw [load_from_file, hsave, loadGo_all_some s [] 0 (fun e he => (hwf e he).1)]
  simp

/-- Claim C6 witness: the round trip on a concrete two-record set. -/
theorem encode_decode_roundtrip_witness :
    (∀ e ∈ c6set, e.2.box.isSome ∧ 0 ≤ e.2.cls.getD (-1)) ∧
    (load_from_file (save_to_file c6set)).1 = c6set :=
  ⟨by decide, encode_decode_roundtrip c6set (by decide)⟩

/-! ## Claim C10 -/

/-- Claim C10: a persisted record without a box key is silently dropped on
load (it neither appears among the boxes nor influences the local-id
allocator, so loading behaves exactly as if the entry were not in the
file), and the next save writes a file without it. -/
theorem load_drops_boxless (data : FrameData) (k : Nat) (r : BoxRecord)
    (hmem : (k, r) ∈ data) (hbox : r.box = none) :
    ((k, r) ∉ (load_from_file data).1) ∧
    load_from_file data = load_from_file (data.filter fun e => e.2.box.isSome) ∧
    ((k, r) ∉ save_to_file (load_from_file data).1) := by
  have hnotin : (k, r) ∉ (load_from_file data).1 := by
    intro hin
    rcases loadGo_mem_box data [] 0 (k, r) hin with hb | hs
    · simp at hb
    · rw [hbox] at hs; simp at hs
  refine ⟨hnotin, ?_, ?_⟩
  · rw [load_from_file, load_from_file, loadGo_filter]
  · intro hin
    exact hnotin (List.mem_filter.mp hin).1

/-- Claim C10 witness: the boxless record under key 2 of c10data is gone
after load and absent from the following save. -/
theorem load_drops_boxless_witness :
    ((2, (⟨none, some 3, some 1⟩ : BoxRecord)) ∈ c10data) ∧
    ((2, (⟨none, some 3, some 1⟩ : BoxRecord)) ∉ (load_from_file c10data).1) ∧
    ((2, (⟨none, some 3, some 1⟩ : BoxRecord)) ∉ save_to_file (load_from_file c10data).1) :=
  ⟨by decide,
   (load_drops_boxless c10data 2 ⟨none, some 3, some 1⟩ (by decide) rfl).1,
   (load_drops_boxless c10data 2 ⟨none, some 3, some 1⟩ (by decide) rfl).2.2⟩

/-! ## Claim C8 -/

/-- Claim C8 counterexample: on an absent local id the update call
evaluates to None (the Python function body has no return statement), not
to False as the claim states. -/
theorem update_box_missing_returns_none :
    update_box [] 0 (some ⟨0, 0, 1, 1⟩) = ([], none) ∧
    (none : Option Bool) ≠ some false := by
  constructor
  · rfl
  · decide

/-- Claim C8 (amended): update_box never raises and always returns None (a
falsy value rather than the literal False); when the local id is absent
the box map is untouched; and in every case each entry keeps its key,
class and track id, with only the geometry of the matching entry replaced. -/
theorem update_box_spec (boxes : FrameData) (box_id : Nat) (rect : Box4) :
    ((update_box boxes box_id (some rect)).2 = none) ∧
    ((∀ e ∈ boxes, e.1 ≠ box_id) → (update_box boxes box_id (some rect)).1 = boxes) ∧
    (∀ i : Nat, ((update_box boxes box_id (some rect)).1)[i]? =
      (boxes[i]?).map fun e => if e.1 = box_id then (e.1, { e.2 with box := some rect }) else e) := by
  by_cases hany : (boxes.any fun e => e.1 == box_id) = true
  · have hcond : ((boxes.any fun e => e.1 == box_id) && (some rect).isSome) = true := by
      simp [hany]
    refine ⟨?_, ?_, ?_⟩
    · simp only [update_box, hcond, if_true]
    · intro habs
      rcases List.any_eq_true.mp hany with ⟨e, he, heq⟩
      exact absurd (by simpa using heq) (habs e he)
    · intro i
      simp only [update_box, hcond, if_true]
      exact List.getElem?_map _ boxes i
  · have hanyf : (boxes.any fun e => e.1 == box_id) = false := by
      cases h : (boxes.any fun e => e.1 == box_id) with
      | false => rfl
      | true => exact absurd h hany
    have hcond : ((boxes.any fun e => e.1 == box_id) && (some rect).isSome) = false := by
      rw [hanyf]; rfl
    refine ⟨?_, ?_, ?_⟩
    · simp only [update_box, hcond, Bool.false_eq_true, if_false]
    · intro _; simp only [update_box, hcond, Bool.false_eq_true, if_false]
    · intro i
      simp only [update_box, hcond, Bool.false_eq_true, if_false]
      cases hq : boxes[i]? with
      | none => rfl
      | some e =>
        have hmem : e ∈ boxes := List.getElem?_mem hq
        have hne : ¬ e.1 = box_id := by
          have := List.any_eq_false.mp hanyf e hmem
          simpa using this
        simp [hne]

/-- Claim C8 witness: with box id 0 absent from a one-record map the map
is unchanged and the call evaluates to None. -/
theorem update_box_spec_witness :
    (update_box [(5, ⟨some ⟨0, 0, 1, 1⟩, some 2, some 3⟩)] 0 (some ⟨1, 1, 2, 2⟩)).1 =
      [(5, ⟨some ⟨0, 0, 1, 1⟩, some 2, some 3⟩)] ∧
    (update_box [(5, ⟨some ⟨0, 0, 1, 1⟩, some 2, some 3⟩)] 0 (some ⟨1, 1, 2, 2⟩)).2 = none :=
  ⟨(update_box_spec [(5, ⟨some ⟨0, 0, 1, 1⟩, some 2, some 3⟩)] 0 ⟨1, 1, 2, 2⟩).2.1 (by decide),
   (update_box_spec [(5, ⟨some ⟨0, 0, 1, 1⟩, some 2, some 3⟩)] 0 ⟨1, 1, 2, 2⟩).1⟩

/-! ## Claim C3 -/

/-- Claim C3 counterexample: on a folder holding one record with track id
0 and class 5, the full rebuild keeps the non-positive track id while the
scan-with-suggestion drops it, so the two indexes differ. -/
theorem rebuild_scan_disagree :
    rebuild_track_cache c3folder (some 0) = some (some 5) ∧
    (scan_folder c3folder).1 (some 0) = none := by
  constructor <;> rfl

theorem scan_step_eq_rebuild_step (st : TrackCache × Int) (e : Nat × BoxRecord)
    (ht : e.2.track_id.isSome) (hpos : 0 < e.2.track_id.getD 0) (hc : e.2.cls.isSome) :
    (scan_step st e).1 = rebuild_step st.1 e := by
  obtain ⟨t, htt⟩ := Option.isSome_iff_exists.mp ht
  obtain ⟨c, hcc⟩ := Option.isSome_iff_exists.mp hc
  rw [htt] at hpos
  simp only [Option.getD_some] at hpos
  simp [scan_step, rebuild_step, htt, hcc, hpos, cacheInsert]

theorem scan_data_eq_rebuild_data : ∀ (data : FrameData) (st : TrackCache × Int),
    (∀ e ∈ data, e.2.track_id.isSome ∧ 0 < e.2.track_id.getD 0 ∧ e.2.cls.isSome) →
    (data.foldl scan_step st).1 = data.foldl rebuild_step st.1 := by
  intro data
  induction data with
  | nil => intro st _; rfl
  | cons e rest ih =>
    intro st h
    obtain ⟨ht, hpos, hc⟩ := h e (by simp)
    simp only [List.foldl_cons]
    have hstep := scan_step_eq_rebuild_step st e ht hpos hc
    rw [ih (scan_step st e) (fun e he => h e (by simp [he])), hstep]

theorem scan_eq_rebuild_folder : ∀ (folder : Folder) (st : TrackCache × Int),
    (∀ fs ∈ folder, ∀ e ∈ file_data fs,
      e.2.track_id.isSome ∧ 0 < e.2.track_id.getD 0 ∧ e.2.cls.isSome) →
    (folder.foldl scan_file st).1 = folder.foldl rebuild_file st.1 := by
  intro folder
  induction folder with
  | nil => intro st _; rfl
  | cons fs rest ih =>
    intro st h
    simp only [List.foldl_cons]
    have hfile : (scan_file st fs).1 = rebuild_file st.1 fs := by
      cases fs with
      | ok data =>
        exact scan_data_eq_rebuild_data data st (fun e he => h (.ok data) (by simp) e he)
      | absent => rfl
      | malformed => rfl
    rw [ih (scan_file st fs) (fun fs hfs e he => h fs (by simp [hfs]) e he), hfile]

/-- Claim C3 (amended): on folders in which every record carries both a
track_id and a class key and every track id is positive, the full rebuild
and the scan-with-suggestion build an identical track_id -> class index. -/
theorem rebuild_scan_agree (folder : Folder)
    (hwf : ∀ fs ∈ folder, ∀ e ∈ file_data fs,
      e.2.track_id.isSome ∧ 0 < e.2.track_id.getD 0 ∧ e.2.cls.isSome) :
    ∀ key, rebuild_track_cache folder key = (scan_folder folder).1 key := by
  intro key
  rw [rebuild_track_cache, scan_folder, scan_eq_rebuild_folder folder _ hwf]

/-- Claim C3 witness: the two scans agree on a concrete positive-id
folder, evaluated at track id 7. -/
theorem rebuild_scan_agree_witness :
    rebuild_track_cache c3posFolder (some 7) = (scan_folder c3posFolder).1 (some 7) :=
  rebuild_scan_agree c3posFolder (by decide) (some 7)

/-! ## Claim C5 -/

theorem swap_record_twice (id1 id2 : Int) (h : id1 ≠ id2) (r : BoxRecord) :
    (swap_record id1 id2 (swap_record id1 id2 r).1).1 = r := by
  obtain ⟨bx, cl, tid⟩ := r
  have h21 : ¬ (id2 = id1) := fun hh => h hh.symm
  by_cases h1 : tid = some id1
  · subst h1; simp [swap_record, h, h21]
  · by_cases h2 : tid = some id2
    · subst h2; simp [swap_record, h, h21]
    · simp [swap_record, h1, h2]

theorem swap_file_twice (id1 id2 : Int) (h : id1 ≠ id2) (fs : FileState) :
    (swap_file id1 id2 (swap_file id1 id2 fs).1).1 = fs := by
  cases fs with
  | ok data =>
    simp only [swap_file, List.map_map]
    congr 1
    rw [List.map_congr_left (fun e _ => ?_), List.map_id]
    simp [Function.comp, swap_record_twice id1 id2 h]
  | absent => rfl
  | malformed => rfl

/-- Claim C5: the global swap is an involution on the folder state, and
within one pass a record matching id1 is sent to id2 (the elif prevents
it from being matched a second time as an id2 record and sent back). -/
theorem swap_involution (folder : Folder) (id1 id2 : Int) (h : id1 ≠ id2) :
    (swap_track_id_globally id1 id2 (swap_track_id_globally id1 id2 folder).1).1 = folder ∧
    ∀ r : BoxRecord, r.track_id = some id1 →
      (swap_record id1 id2 r).1.track_id = some id2 ∧
      (swap_record id1 id2 (swap_record id1 id2 r).1).1 = r := by
  constructor
  · simp only [swap_track_id_globally, if_neg h, List.map_map]
    rw [List.map_congr_left (fun fs _ => ?_), List.map_id]
    simp [Function.comp, swap_file_twice id1 id2 h]
  · intro r h1
    refine ⟨by simp [swap_record, h1], swap_record_twice id1 id2 h r⟩

/-- Claim C5 witness: double swap of ids 1 and 2 restores the concrete
folder, and a record with track id 1 is sent to 2 by one application. -/
theorem swap_involution_witness :
    (swap_track_id_globally 1 2 (swap_track_id_globally 1 2 c5folder).1).1 = c5folder ∧
    (swap_record 1 2 ⟨none, none, some 1⟩).1.track_id = some 2 :=
  ⟨(swap_involution c5folder 1 2 (by decide)).1,
   ((swap_involution c5folder 1 2 (by decide)).2 ⟨none, none, some 1⟩ rfl).1⟩

/-! ## Claim C4 -/

theorem assign_tracks_length (prevs : List PrevBox) :
    ∀ (l : List Detection) (next : Int), (assign_tracks prevs l next).1.length = l.length := by
  intro l
  induction l with
  | nil => intro next; rfl
  | cons d ds ih =>
    intro next
    by_cases hb : (3:ℚ)/10 < (best_match d.box prevs).1
    · simp [assign_tracks, hb, ih]
    · simp [assign_tracks, hb, ih]

theorem assign_tracks_append (prevs : List PrevBox) :
    ∀ (l1 l2 : List Detection) (next : Int),
      assign_tracks prevs (l1 ++ l2) next =
        ((assign_tracks prevs l1 next).1 ++
           (assign_tracks prevs l2 (assign_tracks prevs l1 next).2).1,
         (assign_tracks prevs l2 (assign_tracks prevs l1 next).2).2) := by
  intro l1
  induction l1 with
  | nil => intro l2 next; simp [assign_tracks]
  | cons d ds ih =>
    intro l2 next
    by_cases hb : (3:ℚ)/10 < (best_match d.box prevs).1
    · simp [assign_tracks, hb, ih]
    · simp [assign_tracks, hb, ih]

theorem assign_tracks_get (prevs : List PrevBox) (l : List Detection) (next : Int)
    (i : Nat) (h : i < l.length) :
    ((3:ℚ)/10 < (best_match l[i].box prevs).1 →
      (assign_tracks prevs l next).1[i]? =
        some ⟨some l[i].box,
              some (best_match l[i].box prevs).2.2,
              some (best_match l[i].box prevs).2.1⟩) ∧
    (¬ (3:ℚ)/10 < (best_match l[i].box prevs).1 →
      ((assign_tracks prevs l next).1[i]? =
        some ⟨some l[i].box,
              some l[i].cls,
              some (assign_tracks prevs (l.take i) next).2⟩ ∧
       (assign_tracks prevs (l.take (i + 1)) next).2 =
         (assign_tracks prevs (l.take i) next).2 + 1)) := by
  have hlentake : (l.take i).length = i := by
    simp only [List.length_take]
    omega
  have hlen1 : (assign_tracks prevs (l.take i) next).1.length = i := by
    rw [assign_tracks_length prevs (l.take i) next, hlentake]
  have hdrop : l.drop i = l[i] :: l.drop (i + 1) := List.drop_eq_getElem_cons h
  have happ := assign_tracks_append prevs (l.take i) (l.drop i) next
  rw [List.take_append_drop] at happ
  have hgetrest : (assign_tracks prevs l next).1[i]? =
      (assign_tracks prevs (l.drop i) (assign_tracks prevs (l.take i) next).2).1[0]? := by
    rw [happ]
    rw [List.getElem?_append_right (by rw [hlen1])]
    rw [hlen1]
    simp
  have htake : l.take (i + 1) = l.take i ++ [l[i]] := by
    rw [List.take_succ, List.getElem?_eq_getElem h]
    rfl
  have happ2 := assign_tracks_append prevs (l.take i) [l[i]] next
  rw [← htake] at happ2
  constructor
  · intro hb
    rw [hgetrest, hdrop]
    simp [assign_tracks, hb]
  · intro hb
    constructor
    · rw [hgetrest, hdrop]
      simp [assign_tracks, hb]
    · rw [happ2]
      simp only [assign_tracks, hb, if_false]
      rw [add_box_suggestion, if_neg (by omega)]

/-- Claim C4: in the detection merge, each surviving detection whose best
IoU against the previous frame exceeds 0.3 produces a record carrying
that previous box's track_id and class (the sticky class overrides the
detector's); otherwise the record carries the current suggested track id
and the suggestion counter moves up by one. -/
theorem detection_merge_inheritance (dets existing : List Detection) (prevs : List PrevBox)
    (next : Int) (i : Nat) (h : i < (final_detections dets existing).length) :
    ((3:ℚ)/10 < (best_match (final_detections dets existing)[i].box prevs).1 →
      (assign_tracks prevs (final_detections dets existing) next).1[i]? =
        some ⟨some (final_detections dets existing)[i].box,
              some (best_match (final_detections dets existing)[i].box prevs).2.2,
              some (best_match (final_detections dets existing)[i].box prevs).2.1⟩) ∧
    (¬ (3:ℚ)/10 < (best_match (final_detections dets existing)[i].box prevs).1 →
      ((assign_tracks prevs (final_detections dets existing) next).1[i]? =
        some ⟨some (final_detections dets existing)[i].box,
              some (final_detections dets existing)[i].cls,
              some (assign_tracks prevs ((final_detections dets existing).take i) next).2⟩ ∧
       (assign_tracks prevs ((final_detections dets existing).take (i + 1)) next).2 =
         (assign_tracks prevs ((final_detections dets existing).take i) next).2 + 1)) :=
  assign_tracks_get prevs (final_detections dets existing) next i h

/-- Claim C4 witness: the spec scenario; previous frame holds track 7 at
(0,0,10,10) with class 2, the surviving detection is (1,0,11,10) with
detector class 9 and IoU 9/11 above 0.3, and the produced record carries
track 7 and class 2. -/
theorem detection_merge_inheritance_witness :
    final_detections [⟨⟨1, 0, 11, 10⟩, 9⟩] [] = [⟨⟨1, 0, 11, 10⟩, 9⟩] ∧
    (3:ℚ)/10 < (best_match (⟨1, 0, 11, 10⟩ : Box4) [⟨⟨0, 0, 10, 10⟩, 7, 2⟩]).1 ∧
    (assign_tracks [⟨⟨0, 0, 10, 10⟩, 7, 2⟩] (final_detections [⟨⟨1, 0, 11, 10⟩, 9⟩] []) 3).1[0]? =
      some ⟨some ⟨1, 0, 11, 10⟩, some 2, some 7⟩ := by
  have hfd : final_detections [(⟨⟨1, 0, 11, 10⟩, 9⟩ : Detection)] [] =
      [⟨⟨1, 0, 11, 10⟩, 9⟩] := by decide
  have hlen : 0 < (final_detections [(⟨⟨1, 0, 11, 10⟩, 9⟩ : Detection)] []).length := by
    rw [hfd]; decide
  have hbm : best_match (⟨1, 0, 11, 10⟩ : Box4) [⟨⟨0, 0, 10, 10⟩, 7, 2⟩] = (9/11, 7, 2) := by
    simp only [best_match, List.foldl_cons, List.foldl_nil, calculate_iou]
    norm_num [min_def, max_def]
  have hiou : (3:ℚ)/10 < (best_match (⟨1, 0, 11, 10⟩ : Box4) [⟨⟨0, 0, 10, 10⟩, 7, 2⟩]).1 := by
    rw [hbm]; norm_num
  have hiou2 : (3:ℚ)/10 < ((9/11 : ℚ), (7 : Int), (2 : Int)).1 := by norm_num
  have h1 : (final_detections [(⟨⟨1, 0, 11, 10⟩, 9⟩ : Detection)] [])[0]? =
      some (⟨⟨1, 0, 11, 10⟩, 9⟩ : Detection) := by rw [hfd]; rfl
  have h2 : (final_detections [(⟨⟨1, 0, 11, 10⟩, 9⟩ : Detection)] [])[0]? =
      some ((final_detections [(⟨⟨1, 0, 11, 10⟩, 9⟩ : Detection)] [])[0]) := by
    rw [List.getElem?_eq_getElem hlen]
  rw [h2] at h1
  injection h1 with h3
  have H := (detection_merge_inheritance [⟨⟨1, 0, 11, 10⟩, 9⟩] [] [⟨⟨0, 0, 10, 10⟩, 7, 2⟩] 3 0 hlen).1
  rw [h3] at H
  rw [hbm] at H
  exact ⟨hfd, hiou, H hiou2⟩

/-! ## Claim C7 -/

theorem getD_set_ne (l : Folder) (i j : Nat) (x d : FileState) (hne : i ≠ j) :
    (l.set i x).getD j d = l.getD j d := by
  simp [List.getD_eq_getElem?_getD, List.getElem?_set_ne hne]

theorem getD_set_self (l : Folder) (i : Nat) (x d : FileState) (hi : i < l.length) :
    (l.set i x).getD i d = x := by
  simp [List.getD_eq_getElem?_getD, List.getElem?_set_eq_of_lt x hi]

theorem fill_gap_keeps (target cls : Int) (a : Nat) (s e : Box4) (steps : Nat)
    (orig : Folder) :
    ∀ (ks : List Nat) (st : Folder × Nat),
      (∀ idx, has_track target (orig.getD idx .absent) = true →
        st.1.getD idx .absent = orig.getD idx .absent) →
      ∀ idx, has_track target (orig.getD idx .absent) = true →
        (result_state (fill_gap target cls a s e steps ks st)).1.getD idx .absent =
          orig.getD idx .absent := by
  intro ks
  induction ks with
  | nil => intro st hinv idx hidx; exact hinv idx hidx
  | cons k rest ih =>
    intro st hinv idx hidx
    obtain ⟨folder, count⟩ := st
    by_cases hmal : folder.getD (a + k) .absent = .malformed
    · rw [fill_gap, if_pos hmal]
      exact hinv idx hidx
    · rw [fill_gap, if_neg hmal]
      by_cases hhas : has_track target (folder.getD (a + k) .absent) = true
      · rw [if_pos hhas]
        exact ih (folder, count) hinv idx hidx
      · rw [if_neg hhas]
        apply ih _ _ idx hidx
        intro idx2 hidx2
        by_cases hik : idx2 = a + k
        · exfalso
          have heq := hinv idx2 hidx2
          rw [hik] at heq hidx2
          rw [← heq] at hidx2
          exact absurd hidx2 hhas
        · rw [getD_set_ne folder (a + k) idx2 _ _ (fun hh => hik hh.symm)]
          exact hinv idx2 hidx2

theorem interp_segments_keeps (target : Int) (orig : Folder) :
    ∀ (segs : List ((Nat × Box4 × Int) × (Nat × Box4 × Int))) (st : Folder × Nat),
      (∀ idx, has_track target (orig.getD idx .absent) = true →
        st.1.getD idx .absent = orig.getD idx .absent) →
      ∀ idx, has_track target (orig.getD idx .absent) = true →
        (result_state (interp_segments target segs st)).1.getD idx .absent =
          orig.getD idx .absent := by
  intro segs
  induction segs with
  | nil => intro st hinv idx hidx; exact hinv idx hidx
  | cons seg rest ih =>
    intro st hinv idx hidx
    obtain ⟨A, B⟩ := seg
    rw [interp_segments]
    by_cases hsteps : B.1 - A.1 ≤ 1
    · rw [if_pos hsteps]
      exact ih st hinv idx hidx
    · rw [if_neg hsteps]
      have hfill := fill_gap_keeps target A.2.2 A.1 A.2.1 B.2.1 (B.1 - A.1) orig
        (List.range' 1 (B.1 - A.1 - 1)) st hinv
      cases hres : fill_gap target A.2.2 A.1 A.2.1 B.2.1 (B.1 - A.1)
          (List.range' 1 (B.1 - A.1 - 1)) st with
      | error st' =>
        have := hfill idx hidx
        rw [hres] at this
        exact this
      | ok st' =>
        apply ih st' _ idx hidx
        intro idx2 hidx2
        have := hfill idx2 hidx2
        rw [hres] at this
        exact this

/-- Claim C7: interpolation never touches a frame file whose record set
already holds a record with the target track id; in particular every
intermediate gap frame that already has such a record is skipped and its
file left exactly as it was, even when the call aborts on a later
unparseable file. -/
theorem interpolate_preserves_track_frames (target : Int) (folder : Folder) (idx : Nat)
    (h : has_track target (folder.getD idx .absent) = true) :
    (result_state (interpolate_track target folder)).1.getD idx .absent =
      folder.getD idx .absent := by
  rw [interpolate_track]
  by_cases hlen : (gather_keyframes target folder).length < 2
  · rw [if_pos hlen]
    rfl
  · rw [if_neg hlen]
    exact interp_segments_keeps target folder
      ((gather_keyframes target folder).zip (gather_keyframes target folder).tail)
      (folder, 0) (fun _ _ => rfl) idx h

/-- Claim C7 witness: in c7folder the gap frame 1 already holds a track-1
record, and after interpolation its file is unchanged. -/
theorem interpolate_preserves_track_frames_witness :
    has_track 1 (c7folder.getD 1 .absent) = true ∧
    (result_state (interpolate_track 1 c7folder)).1.getD 1 .absent =
      c7folder.getD 1 .absent :=
  ⟨by decide, interpolate_preserves_track_frames 1 c7folder 1 (by decide)⟩

/-! ## Claim C9 -/

/-- Claim C9: on c9folder the fill phase re-reads the unparseable gap file
at index 3 without any try handler and raises, aborting the call after the
records for the earlier gap frames 1 and 2 were already written; the
tolerant parse-error skip applied only to the keyframe scan (which is why
indices 0 and 4 were the keyframes in the first place). -/
theorem interpolate_parse_error_aborts :
    interpolate_track 1 c9folder = .error (c9expected, 2) ∧
    c9expected.getD 1 .absent ≠ c9folder.getD 1 .absent ∧
    c9folder.getD 3 .absent = .malformed := by
  refine ⟨?_, by decide, by decide⟩
  norm_num [interpolate_track, gather_keyframes, keyframesGo, scan_keyframe, c9folder,
    c9expected, interp_segments, fill_gap, file_data, fresh_key, interp_box, has_track,
    List.range', List.find?]
  simp

/-! ## Claim C2 -/

theorem keyframesGo_bounds : ∀ (f : Folder) (t : Int) (i : Nat) (x : Nat × Box4 × Int),
    x ∈ keyframesGo t i f → i ≤ x.1 ∧ x.1 < i + f.length := by
  intro f
  induction f with
  | nil => intro t i x hx; simp [keyframesGo] at hx
  | cons fs rest ih =>
    intro t i x hx
    rw [keyframesGo] at hx
    cases hscan : scan_keyframe t fs with
    | some bc =>
      obtain ⟨bb, cc⟩ := bc
      rw [hscan] at hx
      rcases List.mem_cons.mp hx with rfl | hx'
      · simp
      · have := ih t (i + 1) x hx'
        constructor
        · omega
        · simp only [List.length_cons]
          omega
    | none =>
      rw [hscan] at hx
      have := ih t (i + 1) x hx
      constructor
      · omega
      · simp only [List.length_cons]
        omega

theorem keyframesGo_chain : ∀ (f : Folder) (t : Int) (i : Nat),
    List.Chain' (fun x y => x.1 < y.1) (keyframesGo t i f) := by
  intro f
  induction f with
  | nil => intro t i; simp [keyframesGo]
  | cons fs rest ih =>
    intro t i
    rw [keyframesGo]
    cases hscan : scan_keyframe t fs with
    | some bc =>
      obtain ⟨bb, cc⟩ := bc
      apply List.chain'_cons'.mpr
      constructor
      · intro y hy
        have hmem : y ∈ keyframesGo t (i + 1) rest := List.mem_of_mem_head? hy
        have := keyframesGo_bounds rest t (i + 1) y hmem
        omega
      · exact ih t (i + 1)
    | none => exact ih t (i + 1)

theorem interp_box_spec_form (s e : Box4) (steps k : Nat) :
    interp_box s e steps k =
      ⟨s.x1 + (e.x1 - s.x1) * k / steps,
       s.y1 + (e.y1 - s.y1) * k / steps,
       s.x2 + (e.x2 - s.x2) * k / steps,
       s.y2 + (e.y2 - s.y2) * k / steps⟩ := by
  simp only [interp_box, Box4.mk.injEq]
  refine ⟨by ring, by ring, by ring, by ring⟩

theorem fill_gap_ok (target cls : Int) (a : Nat) (s e : Box4) (steps : Nat) :
    ∀ (ks : List Nat) (folder : Folder) (count : Nat),
      ks.Nodup →
      (∀ k ∈ ks, a + k < folder.length) →
      (∀ k ∈ ks, folder.getD (a + k) .absent ≠ .malformed ∧
        has_track target (folder.getD (a + k) .absent) = false) →
      ∃ folder',
        fill_gap target cls a s e steps ks (folder, count) = .ok (folder', count + ks.length) ∧
        folder'.length = folder.length ∧
        (∀ idx, (∀ k ∈ ks, idx ≠ a + k) → folder'.getD idx .absent = folder.getD idx .absent) ∧
        (∀ k ∈ ks, folder'.getD (a + k) .absent =
          .ok (file_data (folder.getD (a + k) .absent) ++
            [(fresh_key (file_data (folder.getD (a + k) .absent)),
              ⟨some (interp_box s e steps k), some cls, some target⟩)])) := by
  intro ks
  induction ks with
  | nil =>
    intro folder count _ _ _
    exact ⟨folder, by simp [fill_gap], rfl, fun idx _ => rfl, by simp⟩
  | cons k rest ih =>
    intro folder count hnodup hbound hgap
    obtain ⟨hmal, hhas⟩ := hgap k (by simp)
    have hbk : a + k < folder.length := hbound k (by simp)
    have hknotin : k ∉ rest := (List.nodup_cons.mp hnodup).1
    have hnodup' : rest.Nodup := (List.nodup_cons.mp hnodup).2
    have hne_rest : ∀ k2 ∈ rest, a + k ≠ a + k2 := by
      intro k2 hk2 hh
      have hkk : k = k2 := by omega
      exact hknotin (hkk ▸ hk2)
    have hsame : ∀ k2 ∈ rest,
        (folder.set (a + k)
          (.ok (file_data (folder.getD (a + k) .absent) ++
            [(fresh_key (file_data (folder.getD (a + k) .absent)),
              ⟨some (interp_box s e steps k), some cls, some target⟩)]))).getD (a + k2) .absent =
        folder.getD (a + k2) .absent := by
      intro k2 hk2
      exact getD_set_ne folder (a + k) (a + k2) _ _ (hne_rest k2 hk2)
    obtain ⟨folder', hfill, hlen', hunch, hwrites⟩ := ih
      (folder.set (a + k)
        (.ok (file_data (folder.getD (a + k) .absent) ++
          [(fresh_key (file_data (folder.getD (a + k) .absent)),
            ⟨some (interp_box s e steps k), some cls, some target⟩)])))
      (count + 1) hnodup'
      (fun k2 hk2 => by
        rw [List.length_set]
        exact hbound k2 (by simp [hk2]))
      (fun k2 hk2 => by
        rw [hsame k2 hk2]
        exact hgap k2 (by simp [hk2]))
    refine ⟨folder', ?_, by rw [hlen', List.length_set], ?_, ?_⟩
    · have hhas2 : ¬ has_track target (folder.getD (a + k) .absent) = true := by
        rw [hhas]; simp
      have hc : count + 1 + rest.length = count + (k :: rest).length := by
        simp only [List.length_cons]
        omega
      rw [fill_gap, if_neg hmal, if_neg hhas2, hfill, hc]
    · intro idx hidx
      rw [hunch idx (fun k2 hk2 => hidx k2 (by simp [hk2]))]
      exact getD_set_ne folder (a + k) idx _ _ (fun hh => (hidx k (by simp)) hh.symm)
    · intro k2 hk2
      rcases List.mem_cons.mp hk2 with rfl | hk2'
      · rw [hunch (a + k2) (fun k3 hk3 => hne_rest k3 hk3)]
        rw [getD_set_self folder _ _ _ hbk]
      · rw [hwrites k2 hk2', hsame k2 hk2']

/-- Claim C2 counterexample: track 1 has exactly two keyframes at indices
0 and 2 with gap 2, but the gap file at index 1 is unparseable, so
interpolation raises with nothing written and no count returned instead
of inserting the intermediate record. -/
theorem interpolate_malformed_gap_no_insert :
    interpolate_track 1 c2badFolder = .error (c2badFolder, 0) ∧
    c2badFolder.getD 1 .absent = .malformed := by
  refine ⟨?_, by decide⟩
  norm_num [interpolate_track, gather_keyframes, keyframesGo, scan_keyframe, c2badFolder,
    interp_segments, fill_gap, file_data, has_track, List.range', List.find?]

/-- Claim C2 (amended): for a track with exactly two keyframes at indices
a and b with steps = b - a > 1, provided every intermediate frame's file
is parseable and holds no record for the track, interpolation succeeds,
returns steps - 1 (the number of records inserted), and appends to each
intermediate frame a+k one record whose coordinates are
v_A + (v_B - v_A) * k / steps and whose class is keyframe A's class. -/
theorem interpolate_two_keyframes (target : Int) (folder : Folder)
    (a b : Nat) (bA bB : Box4) (cA cB : Int)
    (hkf : gather_keyframes target folder = [(a, bA, cA), (b, bB, cB)])
    (hsteps : 1 < b - a)
    (hgap : ∀ k ∈ List.range' 1 (b - a - 1),
      folder.getD (a + k) .absent ≠ .malformed ∧
      has_track target (folder.getD (a + k) .absent) = false) :
    (interpolate_track target folder).isOk = true ∧
    (result_state (interpolate_track target folder)).2 = b - a - 1 ∧
    ∀ k ∈ List.range' 1 (b - a - 1),
      (result_state (interpolate_track target folder)).1.getD (a + k) .absent =
        .ok (file_data (folder.getD (a + k) .absent) ++
          [(fresh_key (file_data (folder.getD (a + k) .absent)),
            ⟨some ⟨bA.x1 + (bB.x1 - bA.x1) * k / ((b - a : Nat) : ℚ),
                  bA.y1 + (bB.y1 - bA.y1) * k / ((b - a : Nat) : ℚ),
                  bA.x2 + (bB.x2 - bA.x2) * k / ((b - a : Nat) : ℚ),
                  bA.y2 + (bB.y2 - bA.y2) * k / ((b - a : Nat) : ℚ)⟩,
             some cA, some target⟩)]) := by
  have hkf0 : keyframesGo target 0 folder = [(a, bA, cA), (b, bB, cB)] := hkf
  have hblt : b < folder.length := by
    have hmem : ((b, bB, cB) : Nat × Box4 × Int) ∈ keyframesGo target 0 folder := by
      rw [hkf0]; simp
    have := keyframesGo_bounds folder target 0 (b, bB, cB) hmem
    omega
  have hab : a < b := by
    have hchain := keyframesGo_chain folder target 0
    rw [hkf0] at hchain
    have := List.chain'_cons.mp hchain
    exact this.1
  have hbound : ∀ k ∈ List.range' 1 (b - a - 1), a + k < folder.length := by
    intro k hk
    have := List.mem_range'_1.mp hk
    omega
  obtain ⟨folder', hfill, hlen', hunch, hwrites⟩ :=
    fill_gap_ok target cA a bA bB (b - a) (List.range' 1 (b - a - 1)) folder 0
      (List.nodup_range' _ _) hbound hgap
  have hfill' : fill_gap target cA a bA bB (b - a) (List.range' 1 (b - a - 1)) (folder, 0) =
      .ok (folder', b - a - 1) := by
    rw [List.length_range'] at hfill
    simpa using hfill
  have hresult : interpolate_track target folder = .ok (folder', b - a - 1) := by
    rw [interpolate_track]
    simp only [hkf]
    rw [if_neg (by simp)]
    simp only [List.zip_cons_cons, List.tail_cons, List.zip_nil_right]
    simp only [interp_segments]
    rw [if_neg (by omega : ¬ b - a ≤ 1)]
    rw [hfill']
  refine ⟨by rw [hresult]; rfl, by rw [hresult]; rfl, ?_⟩
  intro k hk
  rw [hresult]
  show folder'.getD (a + k) .absent = _
  rw [hwrites k hk, interp_box_spec_form]

/-- Claim C2 witness: the spec scenario on c2folder; keyframes at 2 and 5,
two records inserted, index 3 receiving geometry (10,0,20,10). -/
theorem interpolate_two_keyframes_witness :
    gather_keyframes 1 c2folder = [(2, ⟨0, 0, 10, 10⟩, 0), (5, ⟨30, 0, 40, 10⟩, 0)] ∧
    (interpolate_track 1 c2folder).isOk = true ∧
    (result_state (interpolate_track 1 c2folder)).2 = 2 ∧
    (result_state (interpolate_track 1 c2folder)).1.getD 3 .absent =
      .ok [(0, ⟨some ⟨10, 0, 20, 10⟩, some 0, some 1⟩)] := by
  have hkf : gather_keyframes 1 c2folder =
      [(2, ⟨0, 0, 10, 10⟩, 0), (5, ⟨30, 0, 40, 10⟩, 0)] := by decide
  have H := interpolate_two_keyframes 1 c2folder 2 5 ⟨0, 0, 10, 10⟩ ⟨30, 0, 40, 10⟩ 0 0
    hkf (by norm_num) (by decide)
  refine ⟨hkf, H.1, H.2.1, ?_⟩
  have h3 := H.2.2 1 (by decide)
  norm_num [c2folder, file_data, fresh_key, List.getD] at h3
  convert h3 using 3
